import Mathlib

/-!
Verification of the editing-state synchronization core of the simple-table
spreadsheet editor (Vue front end, `src/views/TableView.vue` and
`src/components/TableEditor.vue`).

The development shallowly embeds the relevant view logic:

* JavaScript numbers are modelled by `JsNum` (finite values kept exactly as
  an integer numerator over a positive power-of-ten denominator, plus the
  two infinities); a failed `Number()` conversion (NaN) is modelled by
  `Option.none`.  Float rounding and shortest-round-trip printing are not
  modelled; no theorem below depends on them, and every concrete number in
  a theorem is a small integer.
* Vue refs become fields of an explicit `ViewState` / `EditorState` record;
  every event handler is a pure function from state to state, optionally
  paired with the list of backend commands (`invoke` calls) it dispatches
  and the user-visible warnings it shows.
* Asynchronous backend calls are modelled as synchronously acknowledged
  (success path): run-to-completion is the documented concurrency model and
  no claim below concerns backend failures.
* A JavaScript `TypeError` (indexing into a missing row) is modelled by an
  `Option.none` result of the handler that would have thrown.
-/

/-- Unnormalized fraction representing a finite JavaScript number exactly:
`num / den` with `den` a positive power of ten (or one).  Fractions are not
reduced; every comparison in this development is between values built by
the same computation path, so structural equality suffices. -/
structure JsRat where
  num : ℤ
  den : ℕ
deriving DecidableEq, Repr

/-- JavaScript numbers that are not NaN: the two infinities and finite
values. -/
inductive JsNum where
  | posInf
  | negInf
  | finite (q : JsRat)
deriving DecidableEq, Repr

/-- Finite JS number holding an integer. -/
def JsNum.int (n : ℤ) : JsNum := JsNum.finite ⟨n, 1⟩

/-- Decimal digits of the proper fraction `rem / den`, by long division;
fuel-bounded at the call site (JS prints at most 17 significant digits; the
truncation is irrelevant to every claim). -/
def fracDigitsAux (den : ℕ) : ℕ → ℕ → String
  | 0, _ => ""
  | fuel + 1, rem =>
    if rem = 0 then ""
    else
      let r10 := rem * 10
      toString (r10 / den) ++ fracDigitsAux den fuel (r10 % den)

/-- Rendering of a finite JS number by `String(...)`: integers print as
decimal integers, other values with a decimal point. -/
def jsRatToString (q : JsRat) : String :=
  let a := q.num.natAbs
  if a % q.den = 0 then toString (q.num / (q.den : ℤ))
  else
    let sign := if q.num < 0 then "-" else ""
    sign ++ toString (a / q.den) ++ "." ++ fracDigitsAux q.den 17 (a % q.den)

/-- Rendering of a JS number by `String(...)`. -/
def jsNumToString : JsNum → String
  | JsNum.posInf => "Infinity"
  | JsNum.negInf => "-Infinity"
  | JsNum.finite q => jsRatToString q

/-- Cell values of the document mirror: the `CellValue` type of
`src/types` is string | number | boolean | null. -/
inductive CellValue where
  | text (s : String)
  | num (n : JsNum)
  | boolean (b : Bool)
  | null
deriving DecidableEq, Repr

/-- Conversion of a cell value by JavaScript `String(...)`. -/
def jsString : CellValue → String
  | CellValue.text s => s
  | CellValue.num n => jsNumToString n
  | CellValue.boolean true => "true"
  | CellValue.boolean false => "false"
  | CellValue.null => "null"

/-- Lower-casing of one character as JS `toLowerCase()` does on ASCII (the
strings compared against, "true" and "false", are ASCII; Unicode case
mapping is not modelled). -/
def jsCharLower (c : Char) : Char :=
  if 65 ≤ c.toNat ∧ c.toNat ≤ 90 then Char.ofNat (c.toNat + 32) else c

/-- JS `toLowerCase()`. -/
def jsToLowerCase (s : String) : String := ⟨s.data.map jsCharLower⟩

/-- Characters stripped by the implicit trimming in JS `Number(string)`
(ECMAScript StrWhiteSpaceChar; the main Unicode space characters). -/
def isJsWhitespace (c : Char) : Bool :=
  if c = ' ' ∨ c = '\t' ∨ c = '\n' ∨ c = '\r' then true
  else if c.toNat = 11 ∨ c.toNat = 12 then true
  else if c.toNat = 0xA0 ∨ c.toNat = 0xFEFF then true
  else if c.toNat = 0x2028 ∨ c.toNat = 0x2029 then true
  else false

/-- Leading and trailing whitespace removal performed by JS `Number(string)`. -/
def jsTrim (s : String) : String :=
  ⟨((s.data.dropWhile isJsWhitespace).reverse.dropWhile isJsWhitespace).reverse⟩

/-- Numeric value of a decimal digit character. -/
def digitVal (c : Char) : ℕ := c.toNat - 48

/-- Value of a list of decimal digit characters. -/
def digitsToNat (ds : List Char) : ℕ := ds.foldl (fun a c => a * 10 + digitVal c) 0

/-- Hexadecimal digit test. -/
def isHexDigit (c : Char) : Bool :=
  if c.isDigit then true
  else if 97 ≤ c.toNat ∧ c.toNat ≤ 102 then true
  else if 65 ≤ c.toNat ∧ c.toNat ≤ 70 then true
  else false

/-- Octal digit test. -/
def isOctalDigit (c : Char) : Bool :=
  if c.isDigit then c.toNat ≤ 55 else false

/-- Binary digit test. -/
def isBinaryDigit (c : Char) : Bool :=
  c = '0' ∨ c = '1'

/-- Value of a hexadecimal digit character. -/
def hexDigitVal (c : Char) : ℕ :=
  if c.isDigit then c.toNat - 48
  else if 97 ≤ c.toNat then c.toNat - 87
  else c.toNat - 55

/-- Value of a list of hexadecimal digit characters. -/
def hexDigitsToNat (ds : List Char) : ℕ := ds.foldl (fun a c => a * 16 + hexDigitVal c) 0

/-- Value of a list of octal digit characters. -/
def octalDigitsToNat (ds : List Char) : ℕ := ds.foldl (fun a c => a * 8 + digitVal c) 0

/-- Value of a list of binary digit characters. -/
def binaryDigitsToNat (ds : List Char) : ℕ := ds.foldl (fun a c => a * 2 + digitVal c) 0

/-- Optional exponent suffix of a JS decimal literal applied to a parsed
mantissa; `none` when the remaining characters are not a valid (possibly
absent) exponent part. -/
def parseExponentPart (mantissa : JsRat) (rest : List Char) : Option JsRat :=
  match rest with
  | [] => some mantissa
  | e :: r =>
    if e = 'e' ∨ e = 'E' then
      let p :=
        match r with
        | '+' :: t => (false, t)
        | '-' :: t => (true, t)
        | _ => (false, r)
      let ed := p.2.takeWhile Char.isDigit
      let r3 := p.2.dropWhile Char.isDigit
      if ed = [] ∨ r3 ≠ [] then none
      else
        let k := digitsToNat ed
        if p.1 then some ⟨mantissa.num, mantissa.den * 10 ^ k⟩
        else some ⟨mantissa.num * (10 : ℤ) ^ k, mantissa.den⟩
    else none

/-- Unsigned JS decimal literal `digits [. digits] [exponent]` (at least one
digit before or after the point); `none` means NaN. -/
def parseDecRat (cs : List Char) : Option JsRat :=
  let ip := cs.takeWhile Char.isDigit
  let rest := cs.dropWhile Char.isDigit
  let fr :=
    match rest with
    | '.' :: r => (r.takeWhile Char.isDigit, r.dropWhile Char.isDigit)
    | _ => ([], rest)
  if ip = [] ∧ fr.1 = [] then none
  else
    let scale := 10 ^ fr.1.length
    let mantissa : JsRat := ⟨(digitsToNat ip * scale + digitsToNat fr.1 : ℕ), scale⟩
    parseExponentPart mantissa fr.2

/-- Unsigned body of a JS numeric string: `Infinity`, a hex/octal/binary
literal, or a decimal literal. -/
def parseUnsignedJs (cs : List Char) : Option JsNum :=
  if cs = "Infinity".data then some JsNum.posInf
  else
    match cs with
    | '0' :: x :: r =>
      if x = 'x' ∨ x = 'X' then
        if r ≠ [] ∧ r.all isHexDigit then some (JsNum.int (hexDigitsToNat r : ℤ)) else none
      else if x = 'o' ∨ x = 'O' then
        if r ≠ [] ∧ r.all isOctalDigit then some (JsNum.int (octalDigitsToNat r : ℤ)) else none
      else if x = 'b' ∨ x = 'B' then
        if r ≠ [] ∧ r.all isBinaryDigit then some (JsNum.int (binaryDigitsToNat r : ℤ)) else none
      else (parseDecRat ('0' :: x :: r)).map JsNum.finite
    | _ => (parseDecRat cs).map JsNum.finite

/-- Signed body of a JS numeric string: after an explicit sign only
`Infinity` or a decimal literal may follow (signed hex literals are NaN). -/
def parseSignedBody (cs : List Char) (neg : Bool) : Option JsNum :=
  if cs = "Infinity".data then some (if neg then JsNum.negInf else JsNum.posInf)
  else (parseDecRat cs).map (fun q => JsNum.finite (if neg then ⟨-q.num, q.den⟩ else q))

/-- JS `Number(string)` conversion; `none` models NaN, the whitespace-only
string converts to `0`. -/
def jsStringToNumber (s : String) : Option JsNum :=
  let t := (jsTrim s).data
  if t = [] then some (JsNum.int 0)
  else
    match t with
    | '+' :: r => parseSignedBody r false
    | '-' :: r => parseSignedBody r true
    | _ => parseUnsignedJs t

/-- Test of the regular expression `/^0\d/`: a leading `'0'` immediately
followed by another decimal digit. -/
def matchesLeadingZeroDigit (value : String) : Bool :=
  match value.data with
  | '0' :: d :: _ => d.isDigit
  | _ => false

/-- Embedding of `parseCellValue` (TableView.vue lines 60-69): empty string
is null; a leading zero followed by a digit is kept as text; a string whose
`Number()` conversion is not NaN becomes that number; case-insensitive
true/false become booleans; everything else is text.  Total by
construction. -/
def parseCellValue (value : String) : CellValue :=
  if value = "" then CellValue.null
  else if matchesLeadingZeroDigit value then CellValue.text value
  else
    match jsStringToNumber value with
    | some n => CellValue.num n
    | none =>
      if jsToLowerCase value = "true" then CellValue.boolean true
      else if jsToLowerCase value = "false" then CellValue.boolean false
      else CellValue.text value

/-- Embedding of `toRustCellValue` (TableView.vue lines 71-73): the identity. -/
def toRustCellValue (value : CellValue) : CellValue := value

/-- Coercion cascade exactly as the specification words it (section 4.1 and
claim C4): the third rule accepts only strings parseable as a finite
number.  This definition follows the spec text, for comparison against
`parseCellValue`, which was embedded from the source. -/
def specCoercionRules (value : String) : CellValue :=
  if value = "" then CellValue.null
  else if matchesLeadingZeroDigit value then CellValue.text value
  else
    match jsStringToNumber value with
    | some (JsNum.finite q) => CellValue.num (JsNum.finite q)
    | _ =>
      if jsToLowerCase value = "true" then CellValue.boolean true
      else if jsToLowerCase value = "false" then CellValue.boolean false
      else CellValue.text value

/-- Coercion cascade as the claim must be amended: the numeric rule fires
whenever the `Number()` conversion is not NaN, so `"Infinity"` and
`"-Infinity"` also become (infinite) numbers.  Written from the amended
claim text, for comparison against the source embedding. -/
def amendedCoercionRules (value : String) : CellValue :=
  if value = "" then CellValue.null
  else if matchesLeadingZeroDigit value then CellValue.text value
  else
    match jsStringToNumber value with
    | some n => CellValue.num n
    | none =>
      if jsToLowerCase value = "true" then CellValue.boolean true
      else if jsToLowerCase value = "false" then CellValue.boolean false
      else CellValue.text value


/-- One sheet of the document mirror (the `merges` field of the source type
is never read by the editing core and is omitted). -/
structure Sheet where
  name : String
  rows : List (List CellValue)
deriving DecidableEq, Repr

/-- The document mirror held by the file-data store. -/
structure FileData where
  file_name : String
  sheets : List Sheet
deriving DecidableEq, Repr

/-- One entry of the pending-changes queue (TableView.vue line 99). -/
structure PendingChange where
  row : ℕ
  col : ℕ
  value : String
deriving DecidableEq, Repr

/-- Backend commands dispatched through `invoke`, with exactly the payload
fields the call sites pass. -/
inductive BackendCall where
  | setCell (sheetIndex row col : ℕ) (oldValue newValue : CellValue)
  | addRow (sheetIndex rowIndex : ℕ)
  | deleteRow (sheetIndex rowIndex : ℕ)
  | addColumn (sheetIndex : ℕ)
  | deleteColumn (sheetIndex colIndex : ℕ)
  | addSheet
  | deleteSheet (sheetIndex : ℕ)
  | undo
  | redo
  | getEditorState
deriving DecidableEq, Repr

/-- State of TableView.vue: its refs, the pending-changes map and the
debounce timer.  The timer is modelled by the id of the currently pending
`setTimeout` (if any) together with a fresh-id counter, so that cancelling
and restarting is observable.  `sheetSelectedCells` is a JS `Map` used only
through get/set and is modelled as a function. -/
structure ViewState where
  fileData : Option FileData
  currentSheetIndex : ℕ
  hasChanges : Bool
  isLoading : Bool
  canUndo : Bool
  canRedo : Bool
  selectedCell : Option (ℕ × ℕ)
  cellEditorValue : String
  autoScroll : Bool
  sheetSelectedCells : ℕ → Option (ℕ × ℕ)
  pendingChanges : List (String × PendingChange)
  debounceTimer : Option ℕ
  nextTimerId : ℕ

/-- Embedding of the computed `currentSheet` (TableView.vue lines 36-39);
`none` covers both the null of an empty document and the undefined of an
out-of-range index. -/
def currentSheet (s : ViewState) : Option Sheet :=
  match s.fileData with
  | none => none
  | some data => if data.sheets.isEmpty then none else data.sheets[s.currentSheetIndex]?

/-- Embedding of the computed `tableData` (TableView.vue lines 41-44). -/
def tableData (s : ViewState) : List (List CellValue) :=
  match currentSheet s with
  | none => []
  | some sheet => sheet.rows

/-- JS `rows[r]?.[c]`: `none` models undefined (missing row or column). -/
def cellAtJs (rows : List (List CellValue)) (r c : ℕ) : Option CellValue :=
  (rows[r]?).bind fun row => row[c]?

/-- Embedding of the computed `currentCellValue` (TableView.vue lines
76-80), parameterized by the cell coordinates taken from `selectedCell`:
`rows[row]?.[col] ?? null`. -/
def currentCellValue (s : ViewState) (r c : ℕ) : CellValue :=
  match currentSheet s with
  | none => CellValue.null
  | some sheet => (cellAtJs sheet.rows r c).getD CellValue.null

/-- Embedding of the `watch(selectedCell)` callback (TableView.vue lines
83-94): re-derives the editor-bar text from the mirror at the selected
position, or clears it when nothing is selected. -/
def selectedCellWatch (s : ViewState) : ViewState :=
  match s.selectedCell with
  | none => { s with cellEditorValue := "" }
  | some (r, c) =>
    let value := currentCellValue s r c
    { s with cellEditorValue := if value = CellValue.null then "" else jsString value }

/-- Embedding of `getCellKey` (TableView.vue lines 102-104). -/
def getCellKey (row col : ℕ) : String := toString row ++ "," ++ toString col

/-- JS `Map.set` on the pending-changes map: an existing key keeps its
position in iteration order and gets the new value, a new key is appended. -/
def mapSet : List (String × PendingChange) → String → PendingChange → List (String × PendingChange)
  | [], k, v => [(k, v)]
  | (k', v') :: rest, k, v =>
    if k' = k then (k, v) :: rest else (k', v') :: mapSet rest k v

/-- JS assignment `rows[r][c] = v`: `none` models the TypeError thrown when
row `r` is missing; writing past the end of an existing row extends it (the
holes JS leaves read back as undefined and are modelled as null, which no
claim distinguishes). -/
def writeCell (rows : List (List CellValue)) (r c : ℕ) (v : CellValue) :
    Option (List (List CellValue)) :=
  match rows[r]? with
  | none => none
  | some row =>
    let row' :=
      if c < row.length then row.set c v
      else row ++ List.replicate (c - row.length) CellValue.null ++ [v]
    some (rows.set r row')

/-- Replacement of the current sheet's rows, as the JS in-place mutation of
`currentSheet.value.rows` does. -/
def setCurrentRows (s : ViewState) (rows' : List (List CellValue)) : ViewState :=
  match s.fileData with
  | none => s
  | some data =>
    match data.sheets[s.currentSheetIndex]? with
    | none => s
    | some sheet =>
      { s with
        fileData :=
          some { data with sheets := data.sheets.set s.currentSheetIndex { sheet with rows := rows' } } }

/-- Embedding of `handleCellEditing` (TableView.vue lines 137-158): sync
the editor bar if the edited cell is selected, optimistically write the raw
string into the mirror when it differs from the displayed value, then
record the pending change under the cell key and cancel-and-restart the
shared debounce timer.  `none` models the TypeError of writing into a
missing row (the queue/timer steps are then skipped, as after a throw).
The `watch(cellEditorValue)` callback that the editor-bar sync re-triggers
in Vue re-queues the identical key/value pair and restarts the timer again;
being idempotent on the queue it is not modelled separately. -/
def handleCellEditing (row col : ℕ) (value : String) (s0 : ViewState) : Option ViewState :=
  let s := if s0.selectedCell = some (row, col) then { s0 with cellEditorValue := value } else s0
  match currentSheet s with
  | none => some s
  | some sheet =>
    let originalValueStr :=
      match cellAtJs sheet.rows row col with
      | some CellValue.null => ""
      | some v => jsString v
      | none => "undefined"
    let step2 : Option ViewState :=
      if value = originalValueStr then some s
      else
        match writeCell sheet.rows row col (CellValue.text value) with
        | none => none
        | some rows' => some (setCurrentRows s rows')
    step2.map fun s1 =>
      { s1 with
        pendingChanges := mapSet s1.pendingChanges (getCellKey row col) ⟨row, col, value⟩,
        debounceTimer := some s1.nextTimerId,
        nextTimerId := s1.nextTimerId + 1 }

/-- A sequence of rapid edits to one cell: `handleCellEditing` once per
value, left to right. -/
def scheduleEdits (row col : ℕ) (values : List String) (s : ViewState) : Option ViewState :=
  values.foldlM (fun st v => handleCellEditing row col v st) s

/-- Embedding of `handleCellChange` (TableView.vue lines 311-342): read the
old value from the mirror, parse the new one, dispatch `set_cell` with
both, sync the editor bar when the edited cell is selected, then refresh
the undo/redo flags from the backend (`get_editor_state`).  `besp` is the
backend's editor-state reply.  A missing row makes the JS throw before any
call is dispatched; this is modelled as no effect. -/
def handleCellChange (besp : Bool × Bool) (rowIndex colIndex : ℕ) (value : String)
    (s : ViewState) : ViewState × List BackendCall :=
  match currentSheet s with
  | none => (s, [])
  | some sheet =>
    match sheet.rows[rowIndex]? with
    | none => (s, [])
    | some row =>
      let oldValue := row.getD colIndex CellValue.null
      let newValue := parseCellValue value
      let isCurrentCell := s.selectedCell = some (rowIndex, colIndex)
      ({ s with
          cellEditorValue := if isCurrentCell then value else s.cellEditorValue,
          hasChanges := true,
          canUndo := besp.1,
          canRedo := besp.2,
          isLoading := false },
       [BackendCall.setCell s.currentSheetIndex rowIndex colIndex (toRustCellValue oldValue)
          (toRustCellValue newValue),
        BackendCall.getEditorState])

/-- The `for ... of pendingChanges.values()` loop of `debouncedSave`
(TableView.vue lines 107-112), threading the state and concatenating the
dispatched calls in queue iteration order. -/
def fireLoop (besp : Bool × Bool) :
    List (String × PendingChange) → ViewState → ViewState × List BackendCall
  | [], s => (s, [])
  | e :: rest, s =>
    let r1 := handleCellChange besp e.2.row e.2.col e.2.value s
    let r2 := fireLoop besp rest r1.1
    (r2.1, r1.2 ++ r2.2)

/-- Embedding of `debouncedSave` (TableView.vue lines 107-112): commit
every queued change, then clear the queue. -/
def debouncedSave (besp : Bool × Bool) (s : ViewState) : ViewState × List BackendCall :=
  let r := fireLoop besp s.pendingChanges s
  ({ r.1 with pendingChanges := [] }, r.2)

/-- The `set_cell` dispatches of a call list, projected to sheet index,
row, column and the new value carried. -/
def setCellNewValues (calls : List BackendCall) : List (ℕ × ℕ × ℕ × CellValue) :=
  calls.filterMap fun c =>
    match c with
    | BackendCall.setCell sheetIndex row col _ newValue => some (sheetIndex, row, col, newValue)
    | _ => none

/-- The guarded editor-bar assignment inside `handleSheetChange`
(TableView.vue lines 574-578): `if (sheet && sheet.rows[row] && cell !==
null) cellEditorValue = String(cell)`, returning either the derived text or
the previous bar text.  When the restored cell's row exists but the column
does not, JS computes `String(undefined)`; the `watch(selectedCell)`
callback that runs right after (see `sheetChangeFull`) normalizes it
again. -/
def restoreEditorText (fd : Option FileData) (index : ℕ) (savedCell : ℕ × ℕ)
    (fallback : String) : String :=
  match fd with
  | none => fallback
  | some data =>
    match data.sheets[index]? with
    | none => fallback
    | some sheet =>
      match sheet.rows[savedCell.1]? with
      | none => fallback
      | some row =>
        match row[savedCell.2]? with
        | some CellValue.null => fallback
        | some v => jsString v
        | none => "undefined"

/-- Embedding of `handleSheetChange` (TableView.vue lines 560-584): save
the current selection under the old sheet index, clear the editor bar,
switch sheets, then restore the saved selection for the target sheet (and
re-derive the editor-bar text from its data) or clear the selection.  The
pending-changes queue and the debounce timer are not touched. -/
def handleSheetChange (index : ℕ) (s0 : ViewState) : ViewState :=
  let s1 :=
    match s0.selectedCell with
    | some cell =>
      { s0 with
        sheetSelectedCells := fun k =>
          if k = s0.currentSheetIndex then some cell else s0.sheetSelectedCells k }
    | none => s0
  let s2 := { s1 with cellEditorValue := "", currentSheetIndex := index }
  match s2.sheetSelectedCells index with
  | some savedCell =>
    { s2 with
      selectedCell := some savedCell,
      cellEditorValue := restoreEditorText s2.fileData index savedCell s2.cellEditorValue,
      autoScroll := true }
  | none => { s2 with selectedCell := none }

/-- A sheet switch as the framework runs it: the handler, then the
`watch(selectedCell)` callback that fires because the selection was
reassigned. -/
def sheetChangeFull (index : ℕ) (s : ViewState) : ViewState :=
  selectedCellWatch (handleSheetChange index s)

/-- Embedding of `handleDeleteRow` (TableView.vue lines 366-385): splice
the row out of the mirror, then dispatch `delete_row` carrying only the
sheet index and the row index, and refresh the undo/redo flags. -/
def handleDeleteRow (besp : Bool × Bool) (index : ℕ) (s : ViewState) :
    ViewState × List BackendCall :=
  match currentSheet s with
  | none => (s, [])
  | some sheet =>
    let s1 := setCurrentRows s (sheet.rows.take index ++ sheet.rows.drop (index + 1))
    ({ s1 with hasChanges := true, canUndo := besp.1, canRedo := besp.2, isLoading := false },
     [BackendCall.deleteRow s.currentSheetIndex index, BackendCall.getEditorState])

/-- Embedding of `handleDeleteSheet` (TableView.vue lines 465-490): refuse
(with a warning, touching nothing) when the document is absent or has at
most one sheet; otherwise splice the current sheet out, move to the
previous index, dispatch `delete_sheet` and refresh the undo/redo flags.
The result carries the new state, the dispatched calls and the warnings
shown. -/
def handleDeleteSheet (besp : Bool × Bool) (s : ViewState) :
    ViewState × List BackendCall × List String :=
  match s.fileData with
  | none => (s, [], ["Cannot delete the last sheet"])
  | some data =>
    if data.sheets.length ≤ 1 then (s, [], ["Cannot delete the last sheet"])
    else
      let deletedIndex := s.currentSheetIndex
      let sheets' := data.sheets.take deletedIndex ++ data.sheets.drop (deletedIndex + 1)
      let newIndex := if deletedIndex > 0 then deletedIndex - 1 else 0
      ({ s with
          fileData := some { data with sheets := sheets' },
          currentSheetIndex := newIndex,
          hasChanges := true,
          canUndo := besp.1,
          canRedo := besp.2,
          isLoading := false },
       [BackendCall.deleteSheet deletedIndex, BackendCall.getEditorState], [])

/-- Operation results returned by the backend, with the payload fields the
reducer reads (`result.data` is present on every variant it handles). -/
inductive OperationResult where
  | SetCell (sheet_index row col : ℕ) (value : CellValue)
  | AddSheet (sheet_index : ℕ) (name : String)
  | DeleteSheet (sheet_index : ℕ)
  | Batch (sheet_index : ℕ) (changes : List (ℕ × ℕ × CellValue))
  | AddRow (sheet_index index : ℕ)
  | DeleteRow (sheet_index row_index : ℕ)
  | AddColumn (sheet_index index : ℕ)
  | DeleteColumn (sheet_index column_index : ℕ)
deriving DecidableEq, Repr

/-- The sheet index carried by every operation result. -/
def OperationResult.sheetIndex : OperationResult → ℕ
  | OperationResult.SetCell i _ _ _ => i
  | OperationResult.AddSheet i _ => i
  | OperationResult.DeleteSheet i => i
  | OperationResult.Batch i _ => i
  | OperationResult.AddRow i _ => i
  | OperationResult.DeleteRow i _ => i
  | OperationResult.AddColumn i _ => i
  | OperationResult.DeleteColumn i _ => i

/-- JS `splice(i, 0, a)` on a list: insert `a` at `i`, clamped to the end. -/
def jsSpliceInsert {α : Type} (l : List α) (i : ℕ) (a : α) : List α :=
  l.take i ++ a :: l.drop i

/-- JS `splice(i, 1)` on a list: remove the element at `i` if it exists. -/
def jsSpliceRemove {α : Type} (l : List α) (i : ℕ) : List α :=
  l.take i ++ l.drop (i + 1)

/-- Guarded cell write of the reducer: `if (sheet.rows[row]) rows[row][col] = value`. -/
def reducerWrite (rows : List (List CellValue)) (r c : ℕ) (v : CellValue) :
    List (List CellValue) :=
  match writeCell rows r c v with
  | none => rows
  | some rows' => rows'

/-- Replacement of the rows of the sheet at a given index. -/
def setSheetRowsAt (data : FileData) (i : ℕ) (rows' : List (List CellValue)) : FileData :=
  match data.sheets[i]? with
  | none => data
  | some sheet => { data with sheets := data.sheets.set i { sheet with rows := rows' } }

/-- Embedding of `applyOperation` (TableView.vue lines 162-225): apply a
backend-confirmed operation result to the mirror, guarded so that a missing
document or missing addressed sheet is a silent no-op. -/
def applyOperation (result : OperationResult) (s : ViewState) : ViewState :=
  match s.fileData with
  | none => s
  | some data =>
    match data.sheets[result.sheetIndex]? with
    | none => s
    | some sheet =>
      match result with
      | OperationResult.SetCell si r c v =>
        { s with fileData := some (setSheetRowsAt data si (reducerWrite sheet.rows r c v)) }
      | OperationResult.AddSheet si name =>
        { s with fileData := some { data with sheets := data.sheets.set si { sheet with name := name } } }
      | OperationResult.DeleteSheet si =>
        let sheets' := jsSpliceRemove data.sheets si
        let idx' :=
          if s.currentSheetIndex ≥ sheets'.length then max 0 (sheets'.length - 1)
          else s.currentSheetIndex
        { s with fileData := some { data with sheets := sheets' }, currentSheetIndex := idx' }
      | OperationResult.Batch si changes =>
        let rows' := changes.foldl (fun rows ch => reducerWrite rows ch.1 ch.2.1 ch.2.2) sheet.rows
        { s with fileData := some (setSheetRowsAt data si rows') }
      | OperationResult.AddRow si i =>
        let colCount := (sheet.rows.head?.map List.length).getD 0
        let rows' := jsSpliceInsert sheet.rows i (List.replicate colCount CellValue.null)
        { s with fileData := some (setSheetRowsAt data si rows') }
      | OperationResult.DeleteRow si i =>
        { s with fileData := some (setSheetRowsAt data si (jsSpliceRemove sheet.rows i)) }
      | OperationResult.AddColumn si j =>
        let rows' := sheet.rows.map fun row => jsSpliceInsert row j CellValue.null
        { s with fileData := some (setSheetRowsAt data si rows') }
      | OperationResult.DeleteColumn si j =>
        let rows' := sheet.rows.map fun row => jsSpliceRemove row j
        { s with fileData := some (setSheetRowsAt data si rows') }

/-- Search results as the backend returns them. -/
structure SearchResult where
  sheet_index : ℕ
  sheet_name : String
  row : ℕ
  col : ℕ
  value : String
  cell_position : String
deriving DecidableEq, Repr

/-- Embedding of `handleSearchResultClick` (TableView.vue lines 546-554):
switch sheets if needed, enable auto-scroll, select the result cell. -/
def handleSearchResultClick (result : SearchResult) (s : ViewState) : ViewState :=
  let s1 :=
    if result.sheet_index ≠ s.currentSheetIndex then
      { s with currentSheetIndex := result.sheet_index }
    else s
  { s1 with autoScroll := true, selectedCell := some (result.row, result.col) }

/-- Local state of TableEditor.vue: the per-cell uncommitted edit buffer (a
JS record used through indexing and delete, modelled as a function), the
key of the cell in edit mode, and the manual-click flag. -/
structure EditorState where
  editingValue : String → Option String
  editingCell : Option String
  isManualClick : Bool

/-- Embedding of `getKey` (TableEditor.vue lines 113-115). -/
def getKey (rowIndex colIndex : ℕ) : String := toString rowIndex ++ "-" ++ toString colIndex

/-- Embedding of `getCellValue` (TableEditor.vue lines 108-111); the
argument is `none` when the JS value would be undefined. -/
def getCellValue (cell : Option CellValue) : String :=
  match cell with
  | none => ""
  | some CellValue.null => ""
  | some v => jsString v

/-- Scroll commands issued to the virtualized table. -/
inductive ScrollCmd where
  | top (offset : ℚ)
  | left (offset : ℚ)
deriving DecidableEq

/-- Embedding of the `watch(() => props.selectedCell)` callback
(TableEditor.vue lines 45-83): clear all edit state when the selection
becomes null; do nothing when the selected key is already the editing cell;
otherwise enter edit mode seeded from the grid data and, only when the
auto-scroll flag is set, emit the centering scroll offsets
`row*rowHeight - height/2 + rowHeight/2` and
`rowNumberWidth + col*colWidth - width/2 + colWidth/2`, clamped at zero.
`size` is `(tableSize.width, tableSize.height)`. -/
def editorSelectedWatch (dat : List (List CellValue)) (sel : Option (ℕ × ℕ)) (auto : Bool)
    (size : ℚ × ℚ) (es : EditorState) : EditorState × List ScrollCmd :=
  match sel with
  | none => ({ es with editingCell := none, editingValue := fun _ => none }, [])
  | some (r, c) =>
    let newKey := getKey r c
    if es.editingCell = some newKey then (es, [])
    else
      let seeded := getCellValue (cellAtJs dat r c)
      let es' : EditorState :=
        { isManualClick := false,
          editingCell := some newKey,
          editingValue := fun k => if k = newKey then some seeded else none }
      let scrolls :=
        if auto then
          [ScrollCmd.top (max 0 ((r : ℚ) * 40 - size.2 / 2 + 40 / 2)),
           ScrollCmd.left (max 0 (60 + (c : ℚ) * 120 - size.1 / 2 + 120 / 2))]
        else []
      (es', scrolls)

/-- Embedding of `handleCellClick` (TableEditor.vue lines 156-170) together
with the parent `select-cell` handler it synchronously triggers
(TableView.vue line 645): the parent disables auto-scroll and updates the
selection, then the editor puts the clicked key into edit mode with
auto-focus. -/
def handleCellClick (r c : ℕ) (vs : ViewState) (es : EditorState) : ViewState × EditorState :=
  let vs' := { vs with autoScroll := false, selectedCell := some (r, c) }
  let key := getKey r c
  let es' :=
    if es.editingCell = some key then es
    else { es with editingCell := some key, isManualClick := true }
  (vs', es')

/-- An ordinary grid click as the framework runs it: the click handler and
the parent handler it emits to, then the two `watch(selectedCell)`
callbacks (TableView's editor-bar sync and TableEditor's edit-mode/scroll
logic). -/
def gridClickFull (r c : ℕ) (vs : ViewState) (es : EditorState) (size : ℚ × ℚ) :
    ViewState × EditorState × List ScrollCmd :=
  let p1 := handleCellClick r c vs es
  let vs2 := selectedCellWatch p1.1
  let p2 := editorSelectedWatch (tableData vs2) vs2.selectedCell vs2.autoScroll size p1.2
  (vs2, p2.1, p2.2)

/-- A search-result click as the framework runs it: the result handler,
then the two `watch(selectedCell)` callbacks. -/
def searchClickFull (result : SearchResult) (vs : ViewState) (es : EditorState) (size : ℚ × ℚ) :
    ViewState × EditorState × List ScrollCmd :=
  let vs1 := handleSearchResultClick result vs
  let vs2 := selectedCellWatch vs1
  let p2 := editorSelectedWatch (tableData vs2) vs2.selectedCell vs2.autoScroll size es
  (vs2, p2.1, p2.2)

/-- Embedding of `handleBlur` (TableEditor.vue lines 124-134): emit a
`cell-change` event only when the committed text differs from the cell's
current formatted value, then remove the buffer entry and leave edit mode
regardless.  The second component is the list of emitted `cell-change`
events `(row, col, value)`. -/
def handleBlur (rowIndex colIndex : ℕ) (value : String) (dat : List (List CellValue))
    (es : EditorState) : EditorState × List (ℕ × ℕ × String) :=
  let key := getKey rowIndex colIndex
  let originalValue := getCellValue (cellAtJs dat rowIndex colIndex)
  let emits := if value ≠ originalValue then [(rowIndex, colIndex, value)] else []
  ({ es with
      editingValue := fun k => if k = key then none else es.editingValue k,
      editingCell := none },
   emits)

/-- A quiescent view state over a given document: nothing selected, empty
queue, no timer pending. -/
def baseState (d : FileData) : ViewState :=
  { fileData := some d,
    currentSheetIndex := 0,
    hasChanges := false,
    isLoading := false,
    canUndo := false,
    canRedo := false,
    selectedCell := none,
    cellEditorValue := "",
    autoScroll := false,
    sheetSelectedCells := fun _ => none,
    pendingChanges := [],
    debounceTimer := none,
    nextTimerId := 0 }

/-- Editor component state with no cell in edit mode. -/
def idleEditor : EditorState :=
  { editingValue := fun _ => none, editingCell := none, isManualClick := false }

/-- One-sheet document used as a concrete input. -/
def oneSheetDoc : FileData := ⟨"demo.xlsx", [⟨"Sheet1", [[CellValue.null]]⟩]⟩

/-- Two-sheet document used as a concrete input: sheet 0 has an empty cell,
sheet 1 holds the text "b". -/
def twoSheetDoc : FileData :=
  ⟨"demo.xlsx", [⟨"Sheet1", [[CellValue.null]]⟩, ⟨"Sheet2", [[CellValue.text "b"]]⟩]⟩

/-- One-sheet document whose single cell holds the number 5. -/
def numberCellDoc : FileData := ⟨"demo.xlsx", [⟨"Sheet1", [[CellValue.num (JsNum.int 5)]]⟩]⟩

/-- One-sheet document whose single cell holds a given text. -/
def textCellDoc (t : String) : FileData := ⟨"demo.xlsx", [⟨"Sheet1", [[CellValue.text t]]⟩]⟩

/-- Preservation of the selection and the auto-scroll flag by the
editor-bar watch. -/
theorem selectedCellWatch_preserves (s : ViewState) :
    (selectedCellWatch s).selectedCell = s.selectedCell ∧
    (selectedCellWatch s).autoScroll = s.autoScroll := by
  unfold selectedCellWatch
  match h : s.selectedCell with
  | none => exact ⟨rfl, rfl⟩
  | some (r, c) => exact ⟨rfl, rfl⟩

/-- An ordinary grid click emits no scroll command, disables auto-scroll
before the selection update, and selects the clicked cell. -/
theorem gridClickFull_no_scroll (r c : ℕ) (vs : ViewState) (es : EditorState) (size : ℚ × ℚ) :
    (gridClickFull r c vs es size).2.2 = [] ∧
    (gridClickFull r c vs es size).1.autoScroll = false ∧
    (gridClickFull r c vs es size).1.selectedCell = some (r, c) := by
  unfold gridClickFull handleCellClick
  by_cases h : es.editingCell = some (getKey r c)
  · simp only [h, if_true, if_pos]
    simp [editorSelectedWatch, selectedCellWatch, h]
  · simp only [h, if_false, if_neg]
    simp [editorSelectedWatch, selectedCellWatch, h]

/-- C4 (counterexample): the coercion cascade as the claim states it
("parseable as a finite number") disagrees with the code at the input
"Infinity": `Number("Infinity")` is not NaN, so `parseCellValue` returns
the infinite number, while the claim's rules demand the text "Infinity"
(not finite, not a boolean). -/
theorem parseCellValue_infinity_counterexample :
    parseCellValue "Infinity" = CellValue.num JsNum.posInf ∧
    specCoercionRules "Infinity" = CellValue.text "Infinity" ∧
    CellValue.num JsNum.posInf ≠ CellValue.text "Infinity" := by
  refine ⟨by decide, by decide, by decide⟩

/-- C4 (amended): value coercion applies its rules in this exact order:
empty string yields null; a string starting with "0" followed by another
digit is kept as text; otherwise a string whose `Number()` conversion is
not NaN (infinities included) yields that number; otherwise
case-insensitive "true"/"false" yield booleans; every other string yields
itself as text.  The function is total (it is a Lean `def`). -/
theorem parseCellValue_rule_order (value : String) :
    parseCellValue value = amendedCoercionRules value := rfl

/-- C5: a numeric-looking string with a meaningful leading zero is kept
losslessly as text: `parse("0908")` is the text "0908", not the number
908. -/
theorem parseCellValue_leading_zero_preserved :
    parseCellValue "0908" = CellValue.text "0908" ∧
    parseCellValue "0908" ≠ CellValue.num (JsNum.int 908) := by
  refine ⟨by decide, by decide⟩

/-- C8: committing a cell on blur emits a `cell-change` request exactly
when the committed text differs from the cell's current formatted value (a
no-op commit emits nothing), and in every case the buffer entry for that
cell is removed and edit mode is cleared. -/
theorem handleBlur_noop_commit (r c : ℕ) (value : String) (dat : List (List CellValue))
    (es : EditorState) :
    (handleBlur r c value dat es).2 =
      (if value = getCellValue (cellAtJs dat r c) then [] else [(r, c, value)]) ∧
    (handleBlur r c value dat es).1.editingValue (getKey r c) = none ∧
    (handleBlur r c value dat es).1.editingCell = none := by
  refine ⟨?_, ?_, rfl⟩
  · by_cases h : value = getCellValue (cellAtJs dat r c) <;> simp [handleBlur, h]
  · simp [handleBlur]

/-- C9: auto-scroll is one-shot.  An ordinary grid click never emits a
centering scroll and turns the auto-scroll flag off before updating the
selection; the centering computation
(`scrollTop = row*rowHeight - height/2 + rowHeight/2`, clamped at zero)
runs only when the auto-scroll flag is set (with the flag off the watch
emits nothing); and a grid click performed right after an
auto-scroll-triggered search navigation emits no scroll. -/
theorem auto_scroll_one_shot (vs : ViewState) (es : EditorState) (size : ℚ × ℚ) (r c : ℕ)
    (result : SearchResult) (dat : List (List CellValue)) (sel : Option (ℕ × ℕ))
    (ev : String → Option String) (man : Bool) :
    (gridClickFull r c vs es size).2.2 = [] ∧
    (gridClickFull r c vs es size).1.autoScroll = false ∧
    (gridClickFull r c vs es size).1.selectedCell = some (r, c) ∧
    (editorSelectedWatch dat sel false size es).2 = [] ∧
    (editorSelectedWatch dat (some (r, c)) true size ⟨ev, none, man⟩).2 =
      [ScrollCmd.top (max 0 ((r : ℚ) * 40 - size.2 / 2 + 40 / 2)),
       ScrollCmd.left (max 0 (60 + (c : ℚ) * 120 - size.1 / 2 + 120 / 2))] ∧
    (gridClickFull r c (searchClickFull result vs es size).1
        (searchClickFull result vs es size).2.1 size).2.2 = [] := by
  obtain ⟨h1, h2, h3⟩ := gridClickFull_no_scroll r c vs es size
  obtain ⟨g1, _, _⟩ := gridClickFull_no_scroll r c (searchClickFull result vs es size).1
    (searchClickFull result vs es size).2.1 size
  refine ⟨h1, h2, h3, ?_, ?_, g1⟩
  · match sel with
    | none => simp [editorSelectedWatch]
    | some (r', c') =>
      by_cases h : es.editingCell = some (getKey r' c') <;> simp [editorSelectedWatch, h]
  · simp [editorSelectedWatch]

/-- C10: deleting a sheet is rejected when the document is absent or has at
most one sheet: the handler returns after the warning with the state (sheet
list and current index included) untouched and no backend call; with at
least two sheets it proceeds and dispatches `delete_sheet`. -/
theorem delete_sheet_guard (s : ViewState) (besp : Bool × Bool) (data : FileData)
    (hd : s.fileData = some data) :
    (data.sheets.length ≤ 1 →
       (handleDeleteSheet besp s).1 = s ∧
       (handleDeleteSheet besp s).2.1 = [] ∧
       (handleDeleteSheet besp s).2.2 = ["Cannot delete the last sheet"]) ∧
    (2 ≤ data.sheets.length →
       (handleDeleteSheet besp s).2.1 =
         [BackendCall.deleteSheet s.currentSheetIndex, BackendCall.getEditorState] ∧
       (handleDeleteSheet besp s).2.2 = []) := by
  constructor
  · intro h
    simp [handleDeleteSheet, hd, h]
  · intro h
    have h' : ¬ data.sheets.length ≤ 1 := by omega
    simp [handleDeleteSheet, hd, h']

/-- C10 (witness): on a one-sheet document the delete-sheet handler leaves
the state untouched, makes no backend call and shows the warning. -/
theorem delete_sheet_guard_witness :
    (handleDeleteSheet (false, false) (baseState oneSheetDoc)).1 = baseState oneSheetDoc ∧
    (handleDeleteSheet (false, false) (baseState oneSheetDoc)).2.1 = [] ∧
    (handleDeleteSheet (false, false) (baseState oneSheetDoc)).2.2 =
      ["Cannot delete the last sheet"] :=
  (delete_sheet_guard (baseState oneSheetDoc) (false, false) oneSheetDoc rfl).1 (by decide)

/-- C2 (code bug, evaluated at the failing input): edit cell (0,0) of sheet
0 to "x" (debounce pending), then switch to sheet 1 before the timer
fires.  `handleSheetChange` touches neither the pending-changes queue nor
the debounce timer, so the entry for the cell is still queued after the
switch, and when the timer fires the backend receives a `set cell` call for
that cell — aimed at the NEW sheet index 1 (old value read from sheet 1) —
contradicting the claim that all buffer entries are cleared and the backend
is never called for that cell. -/
theorem sheet_switch_pending_change_not_discarded :
    (handleCellEditing 0 0 "x" { baseState twoSheetDoc with selectedCell := some (0, 0) }).map
        (fun s1 =>
          ((sheetChangeFull 1 s1).pendingChanges,
           (debouncedSave (false, false) (sheetChangeFull 1 s1)).2)) =
      some ([(getCellKey 0 0, ⟨0, 0, "x"⟩)],
        [BackendCall.setCell 1 0 0 (CellValue.text "b") (CellValue.text "x"),
         BackendCall.getEditorState]) := by
  decide

/-- C3 (counterexample): the claim fails on the code in two ways.  First,
two documents whose row 0 contents differ ("A" versus "B") produce exactly
the same `delete_row` backend call, so the call cannot carry the deleted
row's contents (it sends only the sheet index and row index).  Second, on
the debounced edit path the mirror is optimistically overwritten before the
call fires: starting from a cell holding the number 5 and editing it to
"7", the dispatched `set cell` carries the already-overwritten text "7" as
the old value — not the number 5 the document held before the edit. -/
theorem delete_row_call_lacks_inverse_context :
    (handleDeleteRow (false, false) 0 (baseState (textCellDoc "A"))).2 =
      (handleDeleteRow (false, false) 0 (baseState (textCellDoc "B"))).2 ∧
    (textCellDoc "A").sheets ≠ (textCellDoc "B").sheets ∧
    (handleCellEditing 0 0 "7" (baseState numberCellDoc)).map
        (fun s1 => (debouncedSave (false, false) s1).2) =
      some [BackendCall.setCell 0 0 0 (CellValue.text "7") (CellValue.num (JsNum.finite ⟨7, 1⟩)),
            BackendCall.getEditorState] ∧
    CellValue.text "7" ≠ CellValue.num (JsNum.int 5) := by
  refine ⟨by decide, by decide, by decide, by decide⟩

/-- C3 (amended): every `set cell` call sends an old value and a new value,
the old value being the mirror's value for the cell at the moment the call
fires (on the debounced path that mirror value has already been
optimistically overwritten with the edited text) and the new value being
the parsed edited text; every `delete row` call sends only the sheet index
and the row index — the deleted row's contents are not part of the call. -/
theorem mutation_call_inverse_context (s : ViewState) (besp : Bool × Bool) (sheet : Sheet)
    (hsh : currentSheet s = some sheet) :
    (∀ (r c : ℕ) (value : String) (row : List CellValue), sheet.rows[r]? = some row →
       (handleCellChange besp r c value s).2 =
         [BackendCall.setCell s.currentSheetIndex r c (row.getD c CellValue.null)
            (parseCellValue value),
          BackendCall.getEditorState]) ∧
    (∀ index : ℕ,
       (handleDeleteRow besp index s).2 =
         [BackendCall.deleteRow s.currentSheetIndex index, BackendCall.getEditorState]) := by
  constructor
  · intro r c value row hrow
    simp [handleCellChange, hsh, hrow, toRustCellValue]
  · intro index
    simp [handleDeleteRow, hsh]

/-- C3 (witness): the amended payload shapes evaluated on a concrete
one-sheet document. -/
theorem mutation_call_inverse_context_witness :
    (handleCellChange (false, false) 0 0 "7" (baseState oneSheetDoc)).2 =
      [BackendCall.setCell 0 0 0 CellValue.null (parseCellValue "7"),
       BackendCall.getEditorState] ∧
    (handleDeleteRow (false, false) 0 (baseState oneSheetDoc)).2 =
      [BackendCall.deleteRow 0 0, BackendCall.getEditorState] := by
  have h := mutation_call_inverse_context (baseState oneSheetDoc) (false, false)
      ⟨"Sheet1", [[CellValue.null]]⟩ rfl
  exact ⟨h.1 0 0 "7" [CellValue.null] rfl, h.2 0⟩

/-- The per-sheet selection memory after the save step of a sheet change:
the current selection (if any) is recorded under the current sheet index. -/
def saveSel (s : ViewState) : ℕ → Option (ℕ × ℕ) := fun k =>
  match s.selectedCell with
  | some cell => if k = s.currentSheetIndex then some cell else s.sheetSelectedCells k
  | none => s.sheetSelectedCells k

/-- Fields of the state untouched by the editor-bar watch. -/
theorem selectedCellWatch_fields (s : ViewState) :
    (selectedCellWatch s).fileData = s.fileData ∧
    (selectedCellWatch s).currentSheetIndex = s.currentSheetIndex ∧
    (selectedCellWatch s).sheetSelectedCells = s.sheetSelectedCells ∧
    (selectedCellWatch s).selectedCell = s.selectedCell := by
  unfold selectedCellWatch
  match h : s.selectedCell with
  | none => exact ⟨rfl, rfl, rfl, rfl⟩
  | some (r, c) => exact ⟨rfl, rfl, rfl, rfl⟩


/-- Characterization of a sheet change: the document is untouched, the
index switches, the memory map records the old selection under the old
index, and the selection becomes whatever the memory map holds for the
target index. -/
theorem handleSheetChange_spec (index : ℕ) (s : ViewState) :
    (handleSheetChange index s).fileData = s.fileData ∧
    (handleSheetChange index s).currentSheetIndex = index ∧
    (handleSheetChange index s).sheetSelectedCells = saveSel s ∧
    (handleSheetChange index s).selectedCell = saveSel s index := by
  unfold handleSheetChange saveSel
  cases hsel : s.selectedCell with
  | none =>
    dsimp only
    cases hl : s.sheetSelectedCells index with
    | none => simp [hl]
    | some savedCell => simp [hl]
  | some cell =>
    dsimp only
    cases hl : (if index = s.currentSheetIndex then some cell else s.sheetSelectedCells index) with
    | none => simp [hl]
    | some savedCell => simp [hl]

/-- The characterization of `handleSheetChange_spec` carried through the
editor-bar watch that follows it. -/
theorem sheetChangeFull_spec (index : ℕ) (s : ViewState) :
    (sheetChangeFull index s).fileData = s.fileData ∧
    (sheetChangeFull index s).currentSheetIndex = index ∧
    (sheetChangeFull index s).sheetSelectedCells = saveSel s ∧
    (sheetChangeFull index s).selectedCell = saveSel s index := by
  unfold sheetChangeFull
  obtain ⟨f1, f2, f3, f4⟩ := handleSheetChange_spec index s
  obtain ⟨w1, w2, w3, w4⟩ := selectedCellWatch_fields (handleSheetChange index s)
  exact ⟨w1.trans f1, w2.trans f2, w3.trans f3, w4.trans f4⟩

/-- After a sheet change that restores a saved in-bounds cell, the
editor-bar text is re-derived from the target sheet's data at that
position. -/
theorem sheetChangeFull_editorText (index r c : ℕ) (s : ViewState) (data : FileData)
    (sheet : Sheet) (row : List CellValue)
    (hd : s.fileData = some data)
    (hres : saveSel s index = some (r, c))
    (hsheet : data.sheets[index]? = some sheet)
    (hrow : sheet.rows[r]? = some row)
    (hcol : c < row.length) :
    (sheetChangeFull index s).cellEditorValue =
      (if row.getD c CellValue.null = CellValue.null then ""
       else jsString (row.getD c CellValue.null)) := by
  obtain ⟨f1, f2, _, f4⟩ := handleSheetChange_spec index s
  have hne : data.sheets.isEmpty = false := by
    cases hds : data.sheets with
    | nil => rw [hds] at hsheet; simp at hsheet
    | cons a l => rfl
  have hcur : currentSheet (handleSheetChange index s) = some sheet := by
    simp [currentSheet, f1, hd, hne, f2, hsheet]
  have hval : currentCellValue (handleSheetChange index s) r c = row.getD c CellValue.null := by
    simp [currentCellValue, hcur, cellAtJs, hrow, List.getElem?_eq_getElem hcol,
      List.getD_eq_getElem?_getD]
  show (selectedCellWatch (handleSheetChange index s)).cellEditorValue = _
  unfold selectedCellWatch
  rw [f4, hres]
  simp [hval]

/-- Document used for the selection-memory witness: sheet 0 holds the text
"v21" at row 2, column 1. -/
def selMemoryDoc : FileData :=
  ⟨"demo.xlsx",
   [⟨"Sheet1",
     [[CellValue.null, CellValue.null],
      [CellValue.null, CellValue.null],
      [CellValue.null, CellValue.text "v21"]]⟩,
    ⟨"Sheet2", [[CellValue.null]]⟩]⟩

/-- C7: selection memory round-trips.  With cell (r, c) selected on sheet
i, switching to any sheet j and back to sheet i restores the selection to
(r, c) — the first switch saves it in the per-sheet memory map under index
i, the second restores it — and the editor-bar text is re-derived from
sheet i's data at that position. -/
theorem selection_memory_round_trip (s : ViewState) (data : FileData) (i j r c : ℕ)
    (sheetI : Sheet) (rowR : List CellValue)
    (hd : s.fileData = some data)
    (hidx : s.currentSheetIndex = i)
    (hsel : s.selectedCell = some (r, c))
    (hsheet : data.sheets[i]? = some sheetI)
    (hrow : sheetI.rows[r]? = some rowR)
    (hcol : c < rowR.length) :
    (sheetChangeFull i (sheetChangeFull j s)).currentSheetIndex = i ∧
    (sheetChangeFull i (sheetChangeFull j s)).selectedCell = some (r, c) ∧
    (sheetChangeFull i (sheetChangeFull j s)).cellEditorValue =
      (if rowR.getD c CellValue.null = CellValue.null then ""
       else jsString (rowR.getD c CellValue.null)) := by
  obtain ⟨a1, a2, a3, a4⟩ := sheetChangeFull_spec j s
  obtain ⟨b1, b2, b3, b4⟩ := sheetChangeFull_spec i (sheetChangeFull j s)
  have hsaveS : saveSel s i = some (r, c) := by
    unfold saveSel
    rw [hsel, hidx]
    simp
  have hsaveT : saveSel (sheetChangeFull j s) i = some (r, c) := by
    unfold saveSel
    cases hts : (sheetChangeFull j s).selectedCell with
    | none =>
      rw [a3]
      exact hsaveS
    | some cellJ =>
      by_cases hij : i = (sheetChangeFull j s).currentSheetIndex
      · have : saveSel s j = some cellJ := by rw [← a4, hts]
        have hji : i = j := by rw [hij, a2]
        have : saveSel s i = some cellJ := by rw [hji]; exact this
        have hc : cellJ = (r, c) := by
          have := hsaveS.symm.trans this
          exact (Option.some_injective _ this).symm
        simp [hij, hc]
      · simp only [if_neg hij]
        rw [a3]
        exact hsaveS
  refine ⟨b2, b4.trans hsaveT, ?_⟩
  exact sheetChangeFull_editorText i r c (sheetChangeFull j s) data sheetI rowR
    (a1.trans hd) hsaveT hsheet hrow hcol

/-- C7 (witness): selecting (2, 1) on sheet 0 of the concrete two-sheet
document, switching to sheet 1 and back, restores the selection and derives
the editor-bar text "v21" from sheet 0. -/
theorem selection_memory_round_trip_witness :
    (sheetChangeFull 0 (sheetChangeFull 1
        { baseState selMemoryDoc with selectedCell := some (2, 1) })).currentSheetIndex = 0 ∧
    (sheetChangeFull 0 (sheetChangeFull 1
        { baseState selMemoryDoc with selectedCell := some (2, 1) })).selectedCell = some (2, 1) ∧
    (sheetChangeFull 0 (sheetChangeFull 1
        { baseState selMemoryDoc with selectedCell := some (2, 1) })).cellEditorValue =
      (if ([CellValue.null, CellValue.text "v21"]).getD 1 CellValue.null = CellValue.null then ""
       else jsString (([CellValue.null, CellValue.text "v21"]).getD 1 CellValue.null)) :=
  selection_memory_round_trip
    { baseState selMemoryDoc with selectedCell := some (2, 1) }
    selMemoryDoc 0 1 2 1
    ⟨"Sheet1",
     [[CellValue.null, CellValue.null],
      [CellValue.null, CellValue.null],
      [CellValue.null, CellValue.text "v21"]]⟩
    [CellValue.null, CellValue.text "v21"]
    rfl rfl rfl (by decide) (by decide) (by decide)

/-- Inserting with `splice(i, 0, a)` always grows a list by exactly one. -/
theorem length_jsSpliceInsert {α : Type} (l : List α) (i : ℕ) (a : α) :
    (jsSpliceInsert l i a).length = l.length + 1 := by
  simp [jsSpliceInsert]
  omega

/-- The element inserted by `splice(i, 0, a)` sits at index `i` when `i` is
within the list. -/
theorem getElem?_jsSpliceInsert_self {α : Type} (l : List α) (i : ℕ) (a : α)
    (h : i ≤ l.length) :
    (jsSpliceInsert l i a)[i]? = some a := by
  unfold jsSpliceInsert
  have hlen : (l.take i).length = i := by simp; omega
  rw [List.getElem?_append_right (by omega), hlen]
  simp

/-- Elements before the insertion point of `splice(i, 0, a)` are unchanged. -/
theorem getElem?_jsSpliceInsert_lt {α : Type} (l : List α) (i k : ℕ) (a : α)
    (hk : k < i) (h : i ≤ l.length) :
    (jsSpliceInsert l i a)[k]? = l[k]? := by
  unfold jsSpliceInsert
  have hlen : (l.take i).length = i := by simp; omega
  rw [List.getElem?_append_left (by omega), List.getElem?_take, if_pos hk]

/-- Elements at or past the insertion point of `splice(i, 0, a)` shift up by
one. -/
theorem getElem?_jsSpliceInsert_ge {α : Type} (l : List α) (i k : ℕ) (a : α)
    (hk : i ≤ k) (h : i ≤ l.length) :
    (jsSpliceInsert l i a)[k + 1]? = l[k]? := by
  unfold jsSpliceInsert
  have hlen : (l.take i).length = i := by simp; omega
  rw [List.getElem?_append_right (by omega), hlen]
  have : k + 1 - i = (k - i) + 1 := by omega
  rw [this]
  simp only [List.getElem?_cons_succ, List.getElem?_drop]
  congr 1
  omega

/-- Removing with `splice(i, 1)` shrinks a list with at least `i + 1`
elements by exactly one. -/
theorem length_jsSpliceRemove {α : Type} (l : List α) (i : ℕ) (h : i < l.length) :
    (jsSpliceRemove l i).length = l.length - 1 := by
  simp [jsSpliceRemove]
  omega

/-- Elements before the removal point of `splice(i, 1)` are unchanged. -/
theorem getElem?_jsSpliceRemove_lt {α : Type} (l : List α) (i k : ℕ)
    (hk : k < i) (h : i < l.length) :
    (jsSpliceRemove l i)[k]? = l[k]? := by
  unfold jsSpliceRemove
  have hlen : (l.take i).length = i := by simp; omega
  rw [List.getElem?_append_left (by omega), List.getElem?_take, if_pos hk]

/-- Elements at or past the removal point of `splice(i, 1)` shift down by
one. -/
theorem getElem?_jsSpliceRemove_ge {α : Type} (l : List α) (i k : ℕ)
    (hk : i ≤ k) (h : i < l.length) :
    (jsSpliceRemove l i)[k]? = l[k + 1]? := by
  unfold jsSpliceRemove
  have hlen : (l.take i).length = i := by simp; omega
  rw [List.getElem?_append_right (by omega), hlen, List.getElem?_drop]
  congr 1
  omega

/-- The rows of the sheet at a given index of an optional document. -/
def sheetRowsAt (fd : Option FileData) (si : ℕ) : List (List CellValue) :=
  match fd with
  | none => []
  | some data =>
    match data.sheets[si]? with
    | none => []
    | some sheet => sheet.rows

/-- Reading back the rows written by `setSheetRowsAt`. -/
theorem sheetRowsAt_setSheetRowsAt (data : FileData) (si : ℕ) (sheet : Sheet)
    (rows' : List (List CellValue)) (hs : data.sheets[si]? = some sheet) :
    sheetRowsAt (some (setSheetRowsAt data si rows')) si = rows' := by
  have hlt : si < data.sheets.length := (List.getElem?_eq_some_iff.mp hs).1
  unfold sheetRowsAt setSheetRowsAt
  rw [hs]
  simp [List.getElem?_set_self', List.getElem?_eq_getElem hlt]

/-- C6: reducer application of structural operations has the exact claimed
shapes.  DeleteRow(i) removes exactly the row at index i (rows before i are
unchanged, each row after moves down one index, the count drops by one).
AddColumn(j) keeps the row count and replaces every row by one that has
exactly one more cell; when j is within the row, the new cell at index j is
null, the cells before j are unchanged and the cells from j on shift up by
one.  AddRow(i) inserts at index i (for i within the sheet) a new row of
nulls whose width is the current first-row length (0 for an empty sheet),
growing the row count by one. -/
theorem applyOperation_structural_shapes (s : ViewState) (data : FileData) (si : ℕ)
    (sheet : Sheet) (hd : s.fileData = some data) (hs : data.sheets[si]? = some sheet) :
    (∀ i, i < sheet.rows.length →
      (sheetRowsAt (applyOperation (OperationResult.DeleteRow si i) s).fileData si).length
          = sheet.rows.length - 1 ∧
      (∀ k, k < i →
        (sheetRowsAt (applyOperation (OperationResult.DeleteRow si i) s).fileData si)[k]?
          = sheet.rows[k]?) ∧
      (∀ k, i ≤ k →
        (sheetRowsAt (applyOperation (OperationResult.DeleteRow si i) s).fileData si)[k]?
          = sheet.rows[k + 1]?)) ∧
    (∀ j,
      (sheetRowsAt (applyOperation (OperationResult.AddColumn si j) s).fileData si).length
          = sheet.rows.length ∧
      ∀ (k : ℕ) (row : List CellValue), sheet.rows[k]? = some row →
        ∃ row' : List CellValue,
          (sheetRowsAt (applyOperation (OperationResult.AddColumn si j) s).fileData si)[k]?
            = some row' ∧
          row'.length = row.length + 1 ∧
          (j ≤ row.length →
            row'[j]? = some CellValue.null ∧
            (∀ m, m < j → row'[m]? = row[m]?) ∧
            (∀ m, j ≤ m → row'[m + 1]? = row[m]?))) ∧
    (∀ i, i ≤ sheet.rows.length →
      (sheetRowsAt (applyOperation (OperationResult.AddRow si i) s).fileData si).length
          = sheet.rows.length + 1 ∧
      (sheetRowsAt (applyOperation (OperationResult.AddRow si i) s).fileData si)[i]?
        = some (List.replicate ((sheet.rows.head?.map List.length).getD 0) CellValue.null)) := by
  have hdel : ∀ i, sheetRowsAt (applyOperation (OperationResult.DeleteRow si i) s).fileData si
      = jsSpliceRemove sheet.rows i := by
    intro i
    have hfd : (applyOperation (OperationResult.DeleteRow si i) s).fileData
        = some (setSheetRowsAt data si (jsSpliceRemove sheet.rows i)) := by
      simp [applyOperation, hd, OperationResult.sheetIndex, hs]
    rw [hfd, sheetRowsAt_setSheetRowsAt data si sheet _ hs]
  have hcolr : ∀ j, sheetRowsAt (applyOperation (OperationResult.AddColumn si j) s).fileData si
      = sheet.rows.map (fun row => jsSpliceInsert row j CellValue.null) := by
    intro j
    have hfd : (applyOperation (OperationResult.AddColumn si j) s).fileData
        = some (setSheetRowsAt data si
            (sheet.rows.map (fun row => jsSpliceInsert row j CellValue.null))) := by
      simp [applyOperation, hd, OperationResult.sheetIndex, hs]
    rw [hfd, sheetRowsAt_setSheetRowsAt data si sheet _ hs]
  have haddr : ∀ i, sheetRowsAt (applyOperation (OperationResult.AddRow si i) s).fileData si
      = jsSpliceInsert sheet.rows i
          (List.replicate ((sheet.rows.head?.map List.length).getD 0) CellValue.null) := by
    intro i
    have hfd : (applyOperation (OperationResult.AddRow si i) s).fileData
        = some (setSheetRowsAt data si (jsSpliceInsert sheet.rows i
            (List.replicate ((sheet.rows.head?.map List.length).getD 0) CellValue.null))) := by
      simp [applyOperation, hd, OperationResult.sheetIndex, hs]
    rw [hfd, sheetRowsAt_setSheetRowsAt data si sheet _ hs]
  refine ⟨?_, ?_, ?_⟩
  · intro i hi
    rw [hdel i]
    exact ⟨length_jsSpliceRemove sheet.rows i hi,
      fun k hk => getElem?_jsSpliceRemove_lt sheet.rows i k hk hi,
      fun k hk => getElem?_jsSpliceRemove_ge sheet.rows i k hk hi⟩
  · intro j
    rw [hcolr j]
    refine ⟨by simp, ?_⟩
    intro k row hk
    refine ⟨jsSpliceInsert row j CellValue.null, ?_, length_jsSpliceInsert row j _, ?_⟩
    · rw [List.getElem?_map, hk]
      rfl
    · intro hj
      exact ⟨getElem?_jsSpliceInsert_self row j _ hj,
        fun m hm => getElem?_jsSpliceInsert_lt row j m _ hm hj,
        fun m hm => getElem?_jsSpliceInsert_ge row j m _ hm hj⟩
  · intro i hi
    rw [haddr i]
    exact ⟨length_jsSpliceInsert sheet.rows i _,
      getElem?_jsSpliceInsert_self sheet.rows i _ hi⟩

/-- Five-row sheet used for the reducer witness; row 4 holds the text
"row4". -/
def fiveRowDoc : FileData :=
  ⟨"demo.xlsx",
   [⟨"Sheet1",
     [[CellValue.null], [CellValue.null], [CellValue.null], [CellValue.null],
      [CellValue.text "row4"]]⟩]⟩

/-- C6 (witness): on the concrete five-row sheet, DeleteRow(3) leaves four
rows with the former row 4 at index 3, AddColumn(0) grows row 0 to two
cells with null inserted at 0, and AddRow(5) appends a one-cell null row. -/
theorem applyOperation_structural_shapes_witness :
    (sheetRowsAt (applyOperation (OperationResult.DeleteRow 0 3)
        (baseState fiveRowDoc)).fileData 0).length = 5 - 1 ∧
    (sheetRowsAt (applyOperation (OperationResult.DeleteRow 0 3)
        (baseState fiveRowDoc)).fileData 0)[3]?
      = (fiveRowDoc.sheets.headD ⟨"", []⟩).rows[4]? := by
  have h := applyOperation_structural_shapes (baseState fiveRowDoc) fiveRowDoc 0
    ⟨"Sheet1",
     [[CellValue.null], [CellValue.null], [CellValue.null], [CellValue.null],
      [CellValue.text "row4"]]⟩ rfl (by decide)
  obtain ⟨hrem, _, _⟩ := h
  obtain ⟨hlen, _, hge⟩ := hrem 3 (by decide)
  exact ⟨hlen, (hge 3 (by decide)).trans (by decide)⟩

/-- Setting the same key twice in the pending-changes map keeps only the
last value (and its original queue position). -/
theorem mapSet_mapSet (m : List (String × PendingChange)) (k : String) (v v' : PendingChange) :
    mapSet (mapSet m k v) k v' = mapSet m k v' := by
  induction m with
  | nil => simp [mapSet]
  | cons e rest ih =>
    obtain ⟨a, b⟩ := e
    by_cases h : a = k
    · simp [mapSet, h]
    · simp [mapSet, h, ih]

/-- Fields of the state untouched by `setCurrentRows`, and the current
sheet after it. -/
theorem setCurrentRows_spec (s : ViewState) (rows' : List (List CellValue)) (sheet : Sheet)
    (hsh : currentSheet s = some sheet) :
    currentSheet (setCurrentRows s rows') = some { sheet with rows := rows' } ∧
    (setCurrentRows s rows').currentSheetIndex = s.currentSheetIndex ∧
    (setCurrentRows s rows').pendingChanges = s.pendingChanges ∧
    (setCurrentRows s rows').debounceTimer = s.debounceTimer ∧
    (setCurrentRows s rows').nextTimerId = s.nextTimerId ∧
    (setCurrentRows s rows').selectedCell = s.selectedCell := by
  unfold currentSheet at hsh
  cases hfd : s.fileData with
  | none => rw [hfd] at hsh; exact absurd hsh (by simp)
  | some data =>
    rw [hfd] at hsh
    dsimp only at hsh
    by_cases he : data.sheets.isEmpty
    · rw [if_pos he] at hsh; exact absurd hsh (by simp)
    · rw [if_neg he] at hsh
      have hlt : s.currentSheetIndex < data.sheets.length := (List.getElem?_eq_some_iff.mp hsh).1
      unfold setCurrentRows
      rw [hfd]
      dsimp only
      rw [hsh]
      dsimp only
      refine ⟨?_, rfl, rfl, rfl, rfl, rfl⟩
      unfold currentSheet
      dsimp only
      have he2 : (data.sheets.set s.currentSheetIndex { sheet with rows := rows' }).isEmpty
          = false := by
        simp [List.isEmpty_iff]
        intro hnil
        rw [hnil] at hlt
        simp at hlt
      rw [he2]
      simp [List.getElem?_set_self', List.getElem?_eq_getElem hlt]

/-- One `schedule` step: for an in-bounds row, `handleCellEditing` cannot
throw, records/overwrites the pending change for the cell key in the shared
queue, cancels the running timer in favour of a fresh one, and leaves the
sheet's row count and the sheet index unchanged. -/
theorem handleCellEditing_spec (row col : ℕ) (value : String) (s : ViewState) (sheet : Sheet)
    (hsh : currentSheet s = some sheet) (hr : row < sheet.rows.length) :
    ∃ (s' : ViewState) (sheet' : Sheet),
      handleCellEditing row col value s = some s' ∧
      currentSheet s' = some sheet' ∧
      sheet'.rows.length = sheet.rows.length ∧
      s'.currentSheetIndex = s.currentSheetIndex ∧
      s'.pendingChanges = mapSet s.pendingChanges (getCellKey row col) ⟨row, col, value⟩ ∧
      s'.debounceTimer = some s.nextTimerId ∧
      s'.nextTimerId = s.nextTimerId + 1 := by
  have hA : currentSheet
        (if s.selectedCell = some (row, col) then { s with cellEditorValue := value } else s)
      = some sheet ∧
      (if s.selectedCell = some (row, col) then { s with cellEditorValue := value } else s).currentSheetIndex
        = s.currentSheetIndex ∧
      (if s.selectedCell = some (row, col) then { s with cellEditorValue := value } else s).pendingChanges
        = s.pendingChanges ∧
      (if s.selectedCell = some (row, col) then { s with cellEditorValue := value } else s).nextTimerId
        = s.nextTimerId := by
    by_cases hb : s.selectedCell = some (row, col)
    · rw [if_pos hb]
      refine ⟨?_, rfl, rfl, rfl⟩
      rw [← hsh]
      rfl
    · rw [if_neg hb]
      exact ⟨hsh, rfl, rfl, rfl⟩
  obtain ⟨hA1, hA2, hA3, hA4⟩ := hA
  have hstep : ∃ (s1 : ViewState) (sheet1 : Sheet),
      (if value =
          (match cellAtJs sheet.rows row col with
           | some CellValue.null => ""
           | some v => jsString v
           | none => "undefined") then
        some (if s.selectedCell = some (row, col) then { s with cellEditorValue := value } else s)
      else
        match writeCell sheet.rows row col (CellValue.text value) with
        | none => none
        | some rows' =>
          some (setCurrentRows
            (if s.selectedCell = some (row, col) then { s with cellEditorValue := value } else s)
            rows')) = some s1 ∧
      currentSheet s1 = some sheet1 ∧
      sheet1.rows.length = sheet.rows.length ∧
      s1.currentSheetIndex = s.currentSheetIndex ∧
      s1.pendingChanges = s.pendingChanges ∧
      s1.nextTimerId = s.nextTimerId := by
    by_cases hv : value =
        (match cellAtJs sheet.rows row col with
         | some CellValue.null => ""
         | some v => jsString v
         | none => "undefined")
    · rw [if_pos hv]
      exact ⟨_, sheet, rfl, hA1, rfl, hA2, hA3, hA4⟩
    · rw [if_neg hv]
      have hrw : writeCell sheet.rows row col (CellValue.text value)
          = some (sheet.rows.set row
              (if col < (sheet.rows.get ⟨row, hr⟩).length then
                (sheet.rows.get ⟨row, hr⟩).set col (CellValue.text value)
              else (sheet.rows.get ⟨row, hr⟩)
                ++ List.replicate (col - (sheet.rows.get ⟨row, hr⟩).length) CellValue.null
                ++ [CellValue.text value])) := by
        unfold writeCell
        rw [List.getElem?_eq_getElem hr]
        rfl
      rw [hrw]
      obtain ⟨c1, c2, c3, c4, c5, c6⟩ := setCurrentRows_spec
        (if s.selectedCell = some (row, col) then { s with cellEditorValue := value } else s)
        (sheet.rows.set row
          (if col < (sheet.rows.get ⟨row, hr⟩).length then
            (sheet.rows.get ⟨row, hr⟩).set col (CellValue.text value)
          else (sheet.rows.get ⟨row, hr⟩)
            ++ List.replicate (col - (sheet.rows.get ⟨row, hr⟩).length) CellValue.null
            ++ [CellValue.text value]))
        sheet hA1
      exact ⟨_, _, rfl, c1, by simp, c2.trans hA2, c3.trans hA3, c5.trans hA4⟩
  obtain ⟨s1, sheet1, h1, h2, h3, h4, h5, h6⟩ := hstep
  unfold handleCellEditing
  dsimp only
  rw [hA1]
  dsimp only
  rw [h1]
  refine ⟨_, sheet1, rfl, ?_, h3, ?_, ?_, ?_, ?_⟩
  · exact h2
  · exact h4
  · dsimp only
    rw [h5]
  · dsimp only
    rw [h6]
  · dsimp only
    rw [h6]

/-- An entry of the map produced by `mapSet` is the new binding or one of
the old entries. -/
theorem mem_mapSet (m : List (String × PendingChange)) (k : String) (v : PendingChange)
    (e : String × PendingChange) (h : e ∈ mapSet m k v) : e = (k, v) ∨ e ∈ m := by
  induction m with
  | nil => simpa [mapSet] using h
  | cons a rest ih =>
    obtain ⟨a1, a2⟩ := a
    by_cases hk : a1 = k
    · simp only [mapSet, if_pos hk, List.mem_cons] at h
      rcases h with h | h
      · exact Or.inl h
      · exact Or.inr (List.mem_cons_of_mem _ h)
    · simp only [mapSet, if_neg hk, List.mem_cons] at h
      rcases h with h | h
      · exact Or.inr (by simp [h])
      · rcases ih h with h' | h'
        · exact Or.inl h'
        · exact Or.inr (List.mem_cons_of_mem _ h')

/-- A nonempty run of rapid edits to one in-bounds cell: every step
succeeds, the queue ends up holding the cell key with the last value (all
intermediate values coalesced), and the debounce timer was cancelled and
restarted by every edit (one fresh timer id per edit, the last one
pending). -/
theorem scheduleEdits_spec (row col : ℕ) (v : String) (vs : List String) (s : ViewState)
    (sheet : Sheet) (hsh : currentSheet s = some sheet) (hr : row < sheet.rows.length) :
    ∃ (s' : ViewState) (sheet' : Sheet),
      scheduleEdits row col (v :: vs) s = some s' ∧
      currentSheet s' = some sheet' ∧
      sheet'.rows.length = sheet.rows.length ∧
      s'.currentSheetIndex = s.currentSheetIndex ∧
      s'.pendingChanges
        = mapSet s.pendingChanges (getCellKey row col) ⟨row, col, vs.getLastD v⟩ ∧
      s'.debounceTimer = some (s.nextTimerId + vs.length) ∧
      s'.nextTimerId = s.nextTimerId + vs.length + 1 := by
  induction vs generalizing v s sheet with
  | nil =>
    obtain ⟨s', sheet', h1, h2, h3, h4, h5, h6, h7⟩ :=
      handleCellEditing_spec row col v s sheet hsh hr
    refine ⟨s', sheet', ?_, h2, h3, h4, by simpa using h5, by simpa using h6, by simpa using h7⟩
    unfold scheduleEdits
    rw [List.foldlM_cons, h1]
    simp
  | cons w ws ih =>
    obtain ⟨s1, sheet1, h1, h2, h3, h4, h5, h6, h7⟩ :=
      handleCellEditing_spec row col v s sheet hsh hr
    obtain ⟨s', sheet', g1, g2, g3, g4, g5, g6, g7⟩ := ih w s1 sheet1 h2 (h3 ▸ hr)
    refine ⟨s', sheet', ?_, g2, g3.trans h3, g4.trans h4, ?_, ?_, ?_⟩
    · unfold scheduleEdits at g1 ⊢
      rw [List.foldlM_cons, h1]
      simpa using g1
    · rw [g5, h5, mapSet_mapSet, List.getLastD_cons]
    · rw [g6, h7]
      congr 1
      simp
      omega
    · rw [g7, h7]
      simp
      omega

/-- Fields of the state untouched by one debounced-commit step. -/
theorem handleCellChange_preserves (besp : Bool × Bool) (r c : ℕ) (v : String) (s : ViewState) :
    (handleCellChange besp r c v s).1.fileData = s.fileData ∧
    (handleCellChange besp r c v s).1.currentSheetIndex = s.currentSheetIndex ∧
    (handleCellChange besp r c v s).1.pendingChanges = s.pendingChanges := by
  unfold handleCellChange
  split
  · exact ⟨rfl, rfl, rfl⟩
  · split
    · exact ⟨rfl, rfl, rfl⟩
    · exact ⟨rfl, rfl, rfl⟩

/-- One debounced-commit step leaves the current sheet unchanged. -/
theorem handleCellChange_currentSheet (besp : Bool × Bool) (r c : ℕ) (v : String)
    (s : ViewState) :
    currentSheet (handleCellChange besp r c v s).1 = currentSheet s := by
  obtain ⟨p1, p2, _⟩ := handleCellChange_preserves besp r c v s
  unfold currentSheet
  rw [p1, p2]

/-- The calls dispatched by one debounced-commit step for an in-bounds row. -/
theorem handleCellChange_calls (besp : Bool × Bool) (r c : ℕ) (v : String) (s : ViewState)
    (sheet : Sheet) (rowl : List CellValue)
    (hsh : currentSheet s = some sheet) (hrow : sheet.rows[r]? = some rowl) :
    (handleCellChange besp r c v s).2 =
      [BackendCall.setCell s.currentSheetIndex r c (rowl.getD c CellValue.null)
        (parseCellValue v),
       BackendCall.getEditorState] := by
  simp [handleCellChange, hsh, hrow, toRustCellValue]

/-- The commit loop of `debouncedSave` dispatches exactly one `set_cell`
per queued entry, in queue iteration order, carrying the queued (latest)
value, and leaves the queue field itself untouched. -/
theorem fireLoop_spec (besp : Bool × Bool) (q : List (String × PendingChange)) (s : ViewState)
    (sheet : Sheet) (hsh : currentSheet s = some sheet)
    (hq : ∀ e ∈ q, e.2.row < sheet.rows.length) :
    setCellNewValues (fireLoop besp q s).2
      = q.map (fun e => (s.currentSheetIndex, e.2.row, e.2.col, parseCellValue e.2.value)) := by
  induction q generalizing s with
  | nil => simp [fireLoop, setCellNewValues]
  | cons e rest ih =>
    have hrowlt : e.2.row < sheet.rows.length := hq e (by simp)
    have hrow : sheet.rows[e.2.row]? = some (sheet.rows.get ⟨e.2.row, hrowlt⟩) :=
      List.getElem?_eq_getElem hrowlt
    have hcalls := handleCellChange_calls besp e.2.row e.2.col e.2.value s sheet _ hsh hrow
    have hcs : currentSheet (handleCellChange besp e.2.row e.2.col e.2.value s).1
        = some sheet := by
      rw [handleCellChange_currentSheet, hsh]
    have hidx := (handleCellChange_preserves besp e.2.row e.2.col e.2.value s).2.1
    have hrest := ih (handleCellChange besp e.2.row e.2.col e.2.value s).1 hcs
      (fun e' he' => hq e' (List.mem_cons_of_mem _ he'))
    unfold fireLoop
    dsimp only
    rw [setCellNewValues, List.filterMap_append, ← setCellNewValues, ← setCellNewValues,
      hcalls, hrest, hidx]
    simp [setCellNewValues]

/-- Firing the debounce timer commits each queued change once, in order,
then clears the queue. -/
theorem debouncedSave_spec (besp : Bool × Bool) (s : ViewState) (sheet : Sheet)
    (hsh : currentSheet s = some sheet)
    (hq : ∀ e ∈ s.pendingChanges, e.2.row < sheet.rows.length) :
    (debouncedSave besp s).1.pendingChanges = [] ∧
    setCellNewValues (debouncedSave besp s).2
      = s.pendingChanges.map
          (fun e => (s.currentSheetIndex, e.2.row, e.2.col, parseCellValue e.2.value)) := by
  unfold debouncedSave
  exact ⟨rfl, fireLoop_spec besp s.pendingChanges s sheet hsh hq⟩

/-- C1: debounce coalescing.  For any cell key (row, col) with an in-bounds
row and any nonempty run of rapid edits to it within the quiescence window,
every edit records/overwrites the pending change for that key in the single
shared pending-changes map (other queued keys keep their entries and
positions) and cancels and restarts the one shared debounce timer (one
fresh timer id per edit, the last one pending); when the timer fires,
exactly one backend `set cell` call is dispatched per queued cell key, in
queue iteration order, the edited key carrying only the last value recorded
for it, after which the queue is cleared. -/
theorem debounce_coalescing (s : ViewState) (row col : ℕ) (v : String) (vs : List String)
    (besp : Bool × Bool) (sheet : Sheet)
    (hsh : currentSheet s = some sheet)
    (hr : row < sheet.rows.length)
    (hq : ∀ e ∈ s.pendingChanges, e.2.row < sheet.rows.length) :
    ∃ s' : ViewState,
      scheduleEdits row col (v :: vs) s = some s' ∧
      s'.pendingChanges
        = mapSet s.pendingChanges (getCellKey row col) ⟨row, col, vs.getLastD v⟩ ∧
      s'.debounceTimer = some (s.nextTimerId + vs.length) ∧
      s'.nextTimerId = s.nextTimerId + vs.length + 1 ∧
      (debouncedSave besp s').1.pendingChanges = [] ∧
      setCellNewValues (debouncedSave besp s').2
        = (mapSet s.pendingChanges (getCellKey row col) ⟨row, col, vs.getLastD v⟩).map
            (fun e => (s.currentSheetIndex, e.2.row, e.2.col, parseCellValue e.2.value)) := by
  obtain ⟨s', sheet', h1, h2, h3, h4, h5, h6, h7⟩ :=
    scheduleEdits_spec row col v vs s sheet hsh hr
  have hq' : ∀ e ∈ s'.pendingChanges, e.2.row < sheet'.rows.length := by
    intro e he
    rw [h5] at he
    rcases mem_mapSet _ _ _ e he with he1 | he2
    · rw [he1, h3]
      exact hr
    · rw [h3]
      exact hq e he2
  obtain ⟨f1, f2⟩ := debouncedSave_spec besp s' sheet' h2 hq'
  refine ⟨s', h1, h5, h6, h7, f1, ?_⟩
  rw [f2, h5, h4]

/-- C1 (witness): two rapid edits "a" then "ab" to cell (0, 0) of the
concrete one-sheet document leave a one-entry queue holding "ab"; firing
the debounce dispatches exactly one `set_cell` with the final value and
empties the queue. -/
theorem debounce_coalescing_witness :
    ∃ s' : ViewState,
      scheduleEdits 0 0 ["a", "ab"] (baseState oneSheetDoc) = some s' ∧
      s'.pendingChanges
        = mapSet [] (getCellKey 0 0) ⟨0, 0, ["ab"].getLastD "a"⟩ ∧
      s'.debounceTimer = some (0 + ["ab"].length) ∧
      s'.nextTimerId = 0 + ["ab"].length + 1 ∧
      (debouncedSave (false, false) s').1.pendingChanges = [] ∧
      setCellNewValues (debouncedSave (false, false) s').2
        = (mapSet [] (getCellKey 0 0) ⟨0, 0, ["ab"].getLastD "a"⟩).map
            (fun e => (0, e.2.row, e.2.col, parseCellValue e.2.value)) :=
  debounce_coalescing (baseState oneSheetDoc) 0 0 "a" ["ab"] (false, false)
    ⟨"Sheet1", [[CellValue.null]]⟩ rfl (by decide) (by simp [baseState])
